import Mathlib

/-!
Verification of the grade-tracker program (`_GRADES_.py`).

The Python classes `Section`, `Course` and `CourseManager` are embedded
shallowly: numeric grades and weights become rationals (`ℚ`), Python's
insertion-ordered dictionaries become association lists (`List (String × _)`)
where key lookup and in-place update act on the first matching entry (Python
dicts have unique keys, so this coincides), and the serialized dictionaries
produced by `to_dict` / consumed by `from_dict` become record types whose
optional fields (`dict.get` with a default) are `Option` values.
-/

namespace Grades

/-- Python `Section.__init__`: name, weight (a percentage), ordered list of grades. -/
structure Section where
  name : String
  weight : ℚ
  grades : List ℚ
  deriving DecidableEq

/-- Python `Section.add_grade`: `self.grades.append(grade)`. -/
def Section.add_grade (s : Section) (grade : ℚ) : Section :=
  { s with grades := s.grades ++ [grade] }

/-- Python `Section.average`: mean of the grades when the list is non-empty
(`if self.grades:`), the sentinel `0.0` otherwise. -/
def Section.average (s : Section) : ℚ :=
  if s.grades = [] then 0 else s.grades.sum / (s.grades.length : ℚ)

/-- The dictionary produced by `Section.to_dict`; the `grades` key is optional
because `Section.from_dict` reads it with `data.get("grades", [])`. -/
structure SectionDict where
  name : String
  weight : ℚ
  grades : Option (List ℚ)
  deriving DecidableEq

/-- Python `Section.to_dict`: `{"name": ..., "weight": ..., "grades": ...}`. -/
def Section.to_dict (s : Section) : SectionDict :=
  ⟨s.name, s.weight, some s.grades⟩

/-- Python `Section.from_dict`: `Section(data["name"], data["weight"],
data.get("grades", []))`. -/
def Section.from_dict (d : SectionDict) : Section :=
  ⟨d.name, d.weight, d.grades.getD []⟩

/-- Association-list model of `name in dict` / `dict[name]`: first match. -/
def lookupKey {α : Type} (k : String) : List (String × α) → Option α
  | [] => none
  | p :: rest => if p.1 = k then some p.2 else lookupKey k rest

/-- Association-list model of `dict[name] = f(dict[name])`: updates the first
entry with the given key in place, preserving insertion order. -/
def updateKey {α : Type} (k : String) (f : α → α) : List (String × α) → List (String × α)
  | [] => []
  | p :: rest => if p.1 = k then (p.1, f p.2) :: rest else p :: updateKey k f rest

/-- Python `Course.__init__`: name and insertion-ordered mapping of sections. -/
structure Course where
  name : String
  sections : List (String × Section)
  deriving DecidableEq

/-- Python `Course.add_section`: if the name is present, overwrite that section's
weight in place; otherwise insert a fresh `Section(name, weight)` (whose
grade list defaults to empty). -/
def Course.add_section (c : Course) (name : String) (weight : ℚ) : Course :=
  if (lookupKey name c.sections).isSome then
    { c with sections := updateKey name (fun s => { s with weight := weight }) c.sections }
  else
    { c with sections := c.sections ++ [(name, Section.mk name weight [])] }

/-- Python `Course.add_assignment_grade`: delegate to the named section's
`add_grade`; if the section is absent, only print (state unchanged). -/
def Course.add_assignment_grade (c : Course) (section_name : String) (grade : ℚ) : Course :=
  if (lookupKey section_name c.sections).isSome then
    { c with sections := updateKey section_name (fun s => s.add_grade grade) c.sections }
  else
    c

/-- Python `Course.update_section_weight`: overwrite the named section's weight in
place; if the section is absent, only print (state unchanged). -/
def Course.update_section_weight (c : Course) (section_name : String) (new_weight : ℚ) : Course :=
  if (lookupKey section_name c.sections).isSome then
    { c with sections := updateKey section_name (fun s => { s with weight := new_weight }) c.sections }
  else
    c

/-- Python `Course.calculate_overall_grade`: fold of
`overall += section.average() * (section.weight / 100)` over the sections,
starting from `0.0`. -/
def Course.calculate_overall_grade (c : Course) : ℚ :=
  c.sections.foldl (fun overall p => overall + p.2.average * (p.2.weight / 100)) 0

/-- Python `Course.calculate_current_grade`: accumulate `(total_score, total_weight)`
over the sections with a non-empty grade list, return `None` when
`total_weight == 0` and `total_score / total_weight` otherwise. -/
def Course.calculate_current_grade (c : Course) : Option ℚ :=
  let t := c.sections.foldl
    (fun acc p =>
      if p.2.grades = [] then acc
      else (acc.1 + p.2.average * p.2.weight, acc.2 + p.2.weight))
    ((0 : ℚ), (0 : ℚ))
  if t.2 = 0 then none else some (t.1 / t.2)

/-- Python `Course.determine_letter_grade`: the if/elif chain on the raw numeric
grade (the method never uses `self`, so it is embedded as a function of the
numeric grade alone). -/
def Course.determine_letter_grade (numeric_grade : ℚ) : String :=
  if numeric_grade ≥ 90 then "A"
  else if numeric_grade ≥ 80 then "B"
  else if numeric_grade ≥ 70 then "C"
  else if numeric_grade ≥ 60 then "D"
  else "F"

/-- The dictionary produced by `Course.to_dict`; the `sections` key is
optional because `Course.from_dict` reads it with `data.get("sections", {})`. -/
structure CourseDict where
  name : String
  sections : Option (List (String × SectionDict))
  deriving DecidableEq

/-- Python `Course.to_dict`: name plus the per-section dictionaries, in order. -/
def Course.to_dict (c : Course) : CourseDict :=
  ⟨c.name, some (c.sections.map (fun p => (p.1, p.2.to_dict)))⟩

/-- Python `Course.from_dict`: rebuild every section with `Section.from_dict`. -/
def Course.from_dict (d : CourseDict) : Course :=
  ⟨d.name, (d.sections.getD []).map (fun p => (p.1, Section.from_dict p.2))⟩

/-- Python `CourseManager.courses`: insertion-ordered mapping of courses. -/
structure CourseManager where
  courses : List (String × Course)
  deriving DecidableEq

/-- Python `CourseManager.get_course_by_index`: positional lookup into
`list(self.courses.values())`; `None` when the index is outside `[0, count)`.
The index is an `Int` because the CLI passes `int(input) - 1`, which may be
negative. -/
def CourseManager.get_course_by_index (m : CourseManager) (index : Int) : Option Course :=
  let courses := m.courses.map Prod.snd
  if 0 ≤ index ∧ index < (courses.length : Int) then courses.get? index.toNat else none

/-- Python `CourseManager.list_courses`: `list(self.courses.keys())`. -/
def CourseManager.list_courses (m : CourseManager) : List String :=
  m.courses.map Prod.fst

/-- The sections of a course that have at least one recorded grade
(the sections passing the `if section.grades:` test). -/
def Course.gradedSections (c : Course) : List (String × Section) :=
  c.sections.filter (fun p => !p.2.grades.isEmpty)

/-- Total weight of the graded sections (the final `total_weight`). -/
def Course.gradedWeight (c : Course) : ℚ :=
  ((c.gradedSections).map (fun p => p.2.weight)).sum

/-- Total weighted score of the graded sections (the final `total_score`). -/
def Course.gradedScore (c : Course) : ℚ :=
  ((c.gradedSections).map (fun p => p.2.average * p.2.weight)).sum

/-- The course "Algorithms" from the spec scenario: section "HW" with weight
40 and grades [80, 90], section "Exam" with weight 60 and no grades. -/
def courseAlg : Course :=
  ⟨"Algorithms", [("HW", ⟨"HW", 40, [80, 90]⟩), ("Exam", ⟨"Exam", 60, []⟩)]⟩

/-- C3: for every grade sequence `G`, `Section.average` returns
`sum(G)/len(G)` when `G` is non-empty and the sentinel `0.0` when `G` is
empty (the embedding is a pure function, so no state is modified). -/
theorem spec_C3 (name : String) (weight : ℚ) (G : List ℚ) :
    (G ≠ [] → (Section.mk name weight G).average = G.sum / (G.length : ℚ)) ∧
    (Section.mk name weight []).average = 0 := by
  constructor
  · intro h
    simp [Section.average, h]
  · simp [Section.average]

/-- Witness for C3 at the concrete grade list [80, 90]. -/
theorem spec_C3_witness :
    ([80, 90] : List ℚ) ≠ [] ∧ (Section.mk "HW" 40 [80, 90]).average = 85 := by
  refine ⟨by simp, ?_⟩
  have h := (spec_C3 "HW" 40 [80, 90]).1 (by simp)
  rw [h]
  norm_num

/-- C4: `determine_letter_grade` maps `x` to A when `x ≥ 90`, B on `[80,90)`,
C on `[70,80)`, D on `[60,70)`, F below 60, on the raw numeric; in particular
90→A, 89.999→B, 80→B, 79.999→C, 70→C, 69.999→D, 60→D, 59.999→F. -/
theorem spec_C4 (x : ℚ) :
    (90 ≤ x → Course.determine_letter_grade x = "A") ∧
    (80 ≤ x ∧ x < 90 → Course.determine_letter_grade x = "B") ∧
    (70 ≤ x ∧ x < 80 → Course.determine_letter_grade x = "C") ∧
    (60 ≤ x ∧ x < 70 → Course.determine_letter_grade x = "D") ∧
    (x < 60 → Course.determine_letter_grade x = "F") ∧
    Course.determine_letter_grade 90 = "A" ∧
    Course.determine_letter_grade (89999 / 1000) = "B" ∧
    Course.determine_letter_grade 80 = "B" ∧
    Course.determine_letter_grade (79999 / 1000) = "C" ∧
    Course.determine_letter_grade 70 = "C" ∧
    Course.determine_letter_grade (69999 / 1000) = "D" ∧
    Course.determine_letter_grade 60 = "D" ∧
    Course.determine_letter_grade (59999 / 1000) = "F" := by
  refine ⟨fun h => ?_, fun h => ?_, fun h => ?_, fun h => ?_, fun h => ?_,
    ?_, ?_, ?_, ?_, ?_, ?_, ?_, ?_⟩
  · unfold Course.determine_letter_grade
    rw [if_pos h]
  · obtain ⟨h1, h2⟩ := h
    unfold Course.determine_letter_grade
    rw [if_neg (not_le.mpr h2), if_pos h1]
  · obtain ⟨h1, h2⟩ := h
    unfold Course.determine_letter_grade
    rw [if_neg (not_le.mpr (by linarith)), if_neg (not_le.mpr h2), if_pos h1]
  · obtain ⟨h1, h2⟩ := h
    unfold Course.determine_letter_grade
    rw [if_neg (not_le.mpr (by linarith)), if_neg (not_le.mpr (by linarith)),
      if_neg (not_le.mpr h2), if_pos h1]
  · unfold Course.determine_letter_grade
    rw [if_neg (not_le.mpr (by linarith)), if_neg (not_le.mpr (by linarith)),
      if_neg (not_le.mpr (by linarith)), if_neg (not_le.mpr h)]
  all_goals norm_num [Course.determine_letter_grade]

/-- Witness for C4 at the concrete grade 95. -/
theorem spec_C4_witness : Course.determine_letter_grade 95 = "A" :=
  (spec_C4 95).1 (by norm_num)

/-- Serializing every section of a course and deserializing them back is the
identity on the section mapping. -/
lemma map_from_to_dict (l : List (String × Section)) :
    (l.map (fun p => (p.1, p.2.to_dict))).map (fun p => (p.1, Section.from_dict p.2)) = l := by
  induction l with
  | nil => rfl
  | cons p rest ih =>
    obtain ⟨k, s⟩ := p
    simp only [List.map_cons, ih]
    cases s
    rfl

/-- C5: serialization round-trips for sections and courses (same names,
weights and grade sequences in order), and restoring a section record whose
grades field is missing yields an empty grade list. -/
theorem spec_C5 :
    (∀ s : Section, Section.from_dict (Section.to_dict s) = s) ∧
    (∀ c : Course, Course.from_dict (Course.to_dict c) = c) ∧
    (∀ (n : String) (w : ℚ), (Section.from_dict ⟨n, w, none⟩).grades = []) := by
  refine ⟨fun s => ?_, fun c => ?_, fun n w => rfl⟩
  · cases s
    rfl
  · obtain ⟨cname, secs⟩ := c
    show Course.from_dict (Course.to_dict (Course.mk cname secs)) = Course.mk cname secs
    unfold Course.to_dict Course.from_dict
    simp only [Option.getD_some]
    rw [map_from_to_dict]

/-- C9: on the concrete course "Algorithms" (HW: weight 40, grades [80, 90];
Exam: weight 60, no grades), the current grade is 85.0 and the overall grade
is 34.0. -/
theorem spec_C9 :
    courseAlg.calculate_current_grade = some 85 ∧
    courseAlg.calculate_overall_grade = 34 := by
  constructor
  · simp [courseAlg, Course.calculate_current_grade, Section.average]
    try norm_num
  · simp [courseAlg, Course.calculate_overall_grade, Section.average]
    try norm_num

/-- The `overall += ...` loop of `calculate_overall_grade`, characterised as
a sum over the section list, for any initial accumulator. -/
lemma foldl_overall (l : List (String × Section)) (a : ℚ) :
    l.foldl (fun overall p => overall + p.2.average * (p.2.weight / 100)) a
      = a + (l.map (fun p => p.2.average * (p.2.weight / 100))).sum := by
  induction l generalizing a with
  | nil => simp
  | cons p rest ih =>
    rw [List.foldl_cons, ih, List.map_cons, List.sum_cons, add_assoc]

/-- The `(total_score, total_weight)` loop of `calculate_current_grade`,
characterised as a pair of sums over the graded sections, for any initial
accumulator pair. -/
lemma foldl_current (l : List (String × Section)) (a b : ℚ) :
    l.foldl
      (fun acc p =>
        if p.2.grades = [] then acc
        else (acc.1 + p.2.average * p.2.weight, acc.2 + p.2.weight))
      (a, b)
      = (a + ((l.filter (fun p => !p.2.grades.isEmpty)).map
            (fun p => p.2.average * p.2.weight)).sum,
         b + ((l.filter (fun p => !p.2.grades.isEmpty)).map
            (fun p => p.2.weight)).sum) := by
  induction l generalizing a b with
  | nil => simp
  | cons p rest ih =>
    rw [List.foldl_cons]
    by_cases h : p.2.grades = []
    · rw [if_pos h, ih]
      simp [List.filter_cons, List.isEmpty_iff, h]
    · rw [if_neg h, ih]
      simp [List.filter_cons, List.isEmpty_iff, h, add_assoc]

/-- Closed form of `calculate_current_grade`: `None` exactly when the total
weight of the graded sections is zero, the weighted quotient otherwise. -/
lemma calculate_current_grade_eq (c : Course) :
    c.calculate_current_grade =
      if c.gradedWeight = 0 then none else some (c.gradedScore / c.gradedWeight) := by
  unfold Course.calculate_current_grade
  rw [foldl_current]
  simp [Course.gradedScore, Course.gradedWeight, Course.gradedSections]

/-- C2: `calculate_overall_grade` is the sum over all sections of
`average * weight/100`, and a section with no grades contributes 0 to that
sum (its weight is multiplied by the sentinel average 0). -/
theorem spec_C2 (c : Course) :
    c.calculate_overall_grade
        = (c.sections.map (fun p => p.2.average * (p.2.weight / 100))).sum ∧
    ∀ p ∈ c.sections, p.2.grades = [] → p.2.average * (p.2.weight / 100) = 0 := by
  constructor
  · unfold Course.calculate_overall_grade
    rw [foldl_overall, zero_add]
  · intro p _ hg
    simp [Section.average, hg]

/-- Witness for C2 at the "Algorithms" course, whose "Exam" section is
ungraded and contributes 0. -/
theorem spec_C2_witness :
    courseAlg.calculate_overall_grade
        = (courseAlg.sections.map (fun p => p.2.average * (p.2.weight / 100))).sum ∧
    (Section.mk "Exam" 60 []).average * ((60 : ℚ) / 100) = 0 := by
  constructor
  · exact (spec_C2 courseAlg).1
  · exact (spec_C2 courseAlg).2 ("Exam", Section.mk "Exam" 60 []) (by simp [courseAlg]) rfl

/-- A course whose only graded section has weight 0: `calculate_current_grade`
returns `None` although a grade has been recorded. -/
def courseZero : Course := ⟨"Zero", [("S", ⟨"S", 0, [80]⟩)]⟩

/-- Counterexample to C1 as stated: on `courseZero` the result is `None`
even though it is not the case that zero sections have a recorded grade. -/
theorem spec_C1_counterexample :
    ¬ (courseZero.calculate_current_grade = none ↔
        ∀ p ∈ courseZero.sections, p.2.grades = []) := by
  intro h
  have h1 : courseZero.calculate_current_grade = none := by
    simp [courseZero, Course.calculate_current_grade, Section.average]
  have h2 := h.mp h1 ("S", ⟨"S", 0, [80]⟩) (by simp [courseZero])
  simp at h2

/-- If every section of a course has an empty grade list, no section passes
the `if section.grades:` filter. -/
lemma gradedSections_eq_nil (c : Course) (h : ∀ p ∈ c.sections, p.2.grades = []) :
    c.gradedSections = [] := by
  simp only [Course.gradedSections, List.filter_eq_nil_iff]
  intro p hp
  simp [List.isEmpty_iff, h p hp]

/-- C1 (amended): `calculate_current_grade` returns `None` exactly when the
summed weight of the graded sections is 0 — in particular when zero sections
have any recorded grade — and otherwise returns
Σ(average*weight)/Σ(weight) over the graded sections only. -/
theorem spec_C1 (c : Course) :
    (c.calculate_current_grade = none ↔ c.gradedWeight = 0) ∧
    (c.gradedWeight ≠ 0 →
      c.calculate_current_grade = some (c.gradedScore / c.gradedWeight)) ∧
    ((∀ p ∈ c.sections, p.2.grades = []) → c.calculate_current_grade = none) := by
  refine ⟨?_, fun h => ?_, fun h => ?_⟩
  · rw [calculate_current_grade_eq]
    by_cases h : c.gradedWeight = 0 <;> simp [h]
  · rw [calculate_current_grade_eq, if_neg h]
  · have hz : c.gradedWeight = 0 := by
      rw [Course.gradedWeight, gradedSections_eq_nil c h]
      rfl
    rw [calculate_current_grade_eq, if_pos hz]

/-- Witness for C1 at the "Algorithms" course (graded weight 40 ≠ 0). -/
theorem spec_C1_witness :
    courseAlg.gradedWeight ≠ 0 ∧
    courseAlg.calculate_current_grade
      = some (courseAlg.gradedScore / courseAlg.gradedWeight) := by
  have hw : courseAlg.gradedWeight = 40 := by
    simp [courseAlg, Course.gradedWeight, Course.gradedSections]
  refine ⟨by rw [hw]; norm_num, (spec_C1 courseAlg).2.1 (by rw [hw]; norm_num)⟩

/-- C10: the grade computations are total — the empty-grades branch of
`average` returns the sentinel without dividing, and
`calculate_current_grade` returns `None` whenever the summed weight of the
graded sections is 0, in particular when every graded section has weight 0. -/
theorem spec_C10 (c : Course) (s : Section) :
    (s.grades = [] → s.average = 0) ∧
    (c.gradedWeight = 0 → c.calculate_current_grade = none) ∧
    ((∀ p ∈ c.sections, p.2.grades ≠ [] → p.2.weight = 0) →
      c.calculate_current_grade = none) := by
  refine ⟨fun h => by simp [Section.average, h], fun h => ?_, fun h => ?_⟩
  · rw [calculate_current_grade_eq, if_pos h]
  · have hz : c.gradedWeight = 0 := by
      rw [Course.gradedWeight]
      apply List.sum_eq_zero
      intro w hw
      simp only [Course.gradedSections, List.mem_map, List.mem_filter] at hw
      obtain ⟨p, ⟨hp, hne⟩, hweq⟩ := hw
      rw [← hweq]
      refine h p hp ?_
      simpa [List.isEmpty_iff] using hne
    rw [calculate_current_grade_eq, if_pos hz]

/-- Witness for C10 at `courseZero`: a graded section exists but its weight
is 0, so the result is `None`, and the empty section's average is 0. -/
theorem spec_C10_witness :
    (Section.mk "S" 0 []).average = 0 ∧ courseZero.calculate_current_grade = none := by
  refine ⟨(spec_C10 courseZero (Section.mk "S" 0 [])).1 rfl,
    (spec_C10 courseZero (Section.mk "S" 0 [])).2.2 ?_⟩
  intro p hp _
  simp only [courseZero, List.mem_singleton] at hp
  rw [hp]

/-- Looking up the updated key returns the updated value. -/
lemma lookupKey_updateKey_self {α : Type} (k : String) (f : α → α) (l : List (String × α)) :
    lookupKey k (updateKey k f l) = (lookupKey k l).map f := by
  induction l with
  | nil => rfl
  | cons p rest ih =>
    by_cases h : p.1 = k
    · simp [updateKey, lookupKey, h]
    · simp [updateKey, lookupKey, h, ih]

/-- Looking up any other key is unaffected by an in-place update. -/
lemma lookupKey_updateKey_ne {α : Type} (k k2 : String) (hne : k2 ≠ k) (f : α → α)
    (l : List (String × α)) :
    lookupKey k2 (updateKey k f l) = lookupKey k2 l := by
  induction l with
  | nil => rfl
  | cons p rest ih =>
    by_cases h : p.1 = k
    · have h2 : ¬ p.1 = k2 := by
        rw [h]
        exact fun hc => hne hc.symm
      simp [updateKey, lookupKey, h, h2, Ne.symm hne]
    · by_cases h3 : p.1 = k2 <;> simp [updateKey, lookupKey, h, h3, hne, ih]

/-- C6: `add_section` on an existing section name overwrites that section's
weight in place, leaving its name and grades (and every other section)
unchanged; on a fresh name it appends a new section with an empty grade
list. -/
theorem spec_C6 (c : Course) (name : String) (weight : ℚ) :
    (∀ s, lookupKey name c.sections = some s →
      (c.add_section name weight).name = c.name ∧
      lookupKey name (c.add_section name weight).sections
        = some (Section.mk s.name weight s.grades) ∧
      ∀ k, k ≠ name →
        lookupKey k (c.add_section name weight).sections = lookupKey k c.sections) ∧
    (lookupKey name c.sections = none →
      c.add_section name weight
        = Course.mk c.name (c.sections ++ [(name, Section.mk name weight [])])) := by
  constructor
  · intro s hs
    unfold Course.add_section
    rw [if_pos (by rw [hs]; rfl)]
    refine ⟨rfl, ?_, fun k hk => lookupKey_updateKey_ne name k hk _ _⟩
    rw [lookupKey_updateKey_self, hs]
    rfl
  · intro hs
    unfold Course.add_section
    rw [if_neg (by rw [hs]; simp)]

/-- Witness for C6: overwriting "HW" of the "Algorithms" course with weight
50 keeps its grades [80, 90] and leaves "Exam" untouched. -/
theorem spec_C6_witness :
    lookupKey "HW" courseAlg.sections = some (Section.mk "HW" 40 [80, 90]) ∧
    lookupKey "HW" (courseAlg.add_section "HW" 50).sections
      = some (Section.mk "HW" 50 [80, 90]) ∧
    lookupKey "Exam" (courseAlg.add_section "HW" 50).sections
      = lookupKey "Exam" courseAlg.sections := by
  have h0 : lookupKey "HW" courseAlg.sections = some (Section.mk "HW" 40 [80, 90]) := by
    simp [courseAlg, lookupKey]
  have h := (spec_C6 courseAlg "HW" 50).1 (Section.mk "HW" 40 [80, 90]) h0
  exact ⟨h0, h.2.1, h.2.2 "Exam" (by simp)⟩

/-- C7: `add_assignment_grade` on an absent section name is a state-preserving
no-op; on a present name it appends the grade to exactly that section's
grade list and changes nothing else; `update_section_weight` on an absent
name is likewise a state-preserving no-op. -/
theorem spec_C7 (c : Course) (section_name : String) (grade new_weight : ℚ) :
    (lookupKey section_name c.sections = none →
      c.add_assignment_grade section_name grade = c) ∧
    (∀ s, lookupKey section_name c.sections = some s →
      (c.add_assignment_grade section_name grade).name = c.name ∧
      lookupKey section_name (c.add_assignment_grade section_name grade).sections
        = some (Section.mk s.name s.weight (s.grades ++ [grade])) ∧
      ∀ k, k ≠ section_name →
        lookupKey k (c.add_assignment_grade section_name grade).sections
          = lookupKey k c.sections) ∧
    (lookupKey section_name c.sections = none →
      c.update_section_weight section_name new_weight = c) := by
  refine ⟨fun hs => ?_, fun s hs => ?_, fun hs => ?_⟩
  · unfold Course.add_assignment_grade
    rw [if_neg (by rw [hs]; simp)]
  · unfold Course.add_assignment_grade
    rw [if_pos (by rw [hs]; rfl)]
    refine ⟨rfl, ?_, fun k hk => lookupKey_updateKey_ne section_name k hk _ _⟩
    rw [lookupKey_updateKey_self, hs]
    rfl
  · unfold Course.update_section_weight
    rw [if_neg (by rw [hs]; simp)]

/-- Witness for C7: on "Algorithms", grading the absent section "Lab" is a
no-op, and grading "HW" appends 95 to its grade list. -/
theorem spec_C7_witness :
    courseAlg.add_assignment_grade "Lab" 95 = courseAlg ∧
    lookupKey "HW" (courseAlg.add_assignment_grade "HW" 95).sections
      = some (Section.mk "HW" 40 [80, 90, 95]) ∧
    courseAlg.update_section_weight "Lab" 10 = courseAlg := by
  have habs : lookupKey "Lab" courseAlg.sections = none := by
    simp [courseAlg, lookupKey]
  have hhw : lookupKey "HW" courseAlg.sections = some (Section.mk "HW" 40 [80, 90]) := by
    simp [courseAlg, lookupKey]
  refine ⟨(spec_C7 courseAlg "Lab" 95 0).1 habs, ?_,
    (spec_C7 courseAlg "Lab" 95 10).2.2 habs⟩
  have h := ((spec_C7 courseAlg "HW" 95 0).2.1 (Section.mk "HW" 40 [80, 90]) hhw).2.1
  simpa using h

/-- A concrete manager holding two courses, for the C8 witness. -/
def mgrEx : CourseManager := ⟨[("Algorithms", courseAlg), ("Zero", courseZero)]⟩

/-- C8: `get_course_by_index` returns the i-th course of the insertion-ordered
listing when 0 ≤ i < count, and the `None` signal for every index outside
[0, count); with an empty course set it returns `None` for every index. -/
theorem spec_C8 (m : CourseManager) (i : Int) :
    (0 ≤ i → i < (m.courses.length : Int) →
      m.get_course_by_index i = (m.courses.map Prod.snd).get? i.toNat ∧
      (m.get_course_by_index i).isSome = true) ∧
    ((i < 0 ∨ (m.courses.length : Int) ≤ i) → m.get_course_by_index i = none) ∧
    (m.courses = [] → m.get_course_by_index i = none) := by
  refine ⟨fun h1 h2 => ?_, fun h => ?_, fun h => ?_⟩
  · have hc : 0 ≤ i ∧ i < ((m.courses.map Prod.snd).length : Int) := by
      constructor
      · exact h1
      · simpa using h2
    have hlt : i.toNat < (m.courses.map Prod.snd).length := by
      omega
    unfold CourseManager.get_course_by_index
    rw [if_pos hc]
    exact ⟨rfl, by rw [List.get?_eq_get hlt]; rfl⟩
  · unfold CourseManager.get_course_by_index
    rw [if_neg ?_]
    rintro ⟨ha, hb⟩
    simp only [List.length_map] at hb
    rcases h with h | h <;> omega
  · unfold CourseManager.get_course_by_index
    rw [if_neg ?_]
    rintro ⟨ha, hb⟩
    rw [h] at hb
    simp at hb
    omega

/-- Witness for C8: index 1 of a two-course manager is found, index 2 is
`None`, and every index of an empty manager is `None`. -/
theorem spec_C8_witness :
    mgrEx.get_course_by_index 1 = (mgrEx.courses.map Prod.snd).get? (1 : Int).toNat ∧
    (mgrEx.get_course_by_index 1).isSome = true ∧
    mgrEx.get_course_by_index 2 = none ∧
    (CourseManager.mk []).get_course_by_index 5 = none := by
  have h1 := (spec_C8 mgrEx 1).1 (by norm_num) (by norm_num [mgrEx])
  have h2 := (spec_C8 mgrEx 2).2.1 (Or.inr (by norm_num [mgrEx]))
  have h3 := (spec_C8 (CourseManager.mk []) 5).2.2 rfl
  exact ⟨h1.1, h1.2, h2, h3⟩

end Grades
